import Mathlib

/-!
# Verification of the contact-management core

A shallow embedding of the contact-management core (`src/src/index.ts`):
the `Contact` record class, the storage port, and the `ContactManager`
directory with its canonical collection and derived filtered view.

Modelling conventions:
* JavaScript strings are modelled as `List Char`; `toLowerCase`, `trim` and
  `includes` are modelled on lists (`toLowerStr`, `trimStr`, `strIncludes`).
* `Date` values are modelled as `Nat` timestamps; the nondeterministic
  `Date.now()` and `generateId()` are passed in as explicit arguments.
* The DOM element `searchInput` read by `applyCurrentFilter` is modelled as
  the field `searchInputValue` of the manager state; the UI keeps it equal
  to the last query typed (`handleSearch` sets it and then searches).
* The storage port (`LocalStorageManager`) is modelled inside the manager
  state: `stored` is the persisted blob, `saveFails` says whether `save`
  throws, and `saveCalls` counts invocations of `save` (so that "no
  persistence call occurs" is observable).
* Thrown exceptions are modelled with `Except`: each mutating method returns
  the (possibly mutated) state together with `Except CMError result`,
  matching the fact that a JS method that throws still keeps the mutations
  it performed before the `throw`.
-/

/-- JavaScript strings, modelled as lists of characters. -/
abbrev Str := List Char

/-- Model of `String.prototype.toLowerCase` (ASCII letters, via `Char.toLower`). -/
def toLowerStr (s : Str) : Str := s.map Char.toLower

/-- Model of `String.prototype.trim`: drop whitespace from both ends. -/
def trimStr (s : Str) : Str :=
  List.rdropWhile Char.isWhitespace (s.dropWhile Char.isWhitespace)

/-- Model of `String.prototype.includes`: is `pat` a contiguous substring of `s`?
`List.isPrefixOf pat s || ...` scans every suffix of `s`. -/
def strIncludes : Str → Str → Bool
  | [], pat => pat.isEmpty
  | c :: t, pat => List.isPrefixOf pat (c :: t) || strIncludes t pat

/-- The error kinds thrown by the core (`throw new Error(...)` in the source;
names follow the specification: DuplicateEmail, NotFound,
PersistenceWriteFailure). -/
inductive CMError where
  | duplicateEmail
  | notFound
  | persistenceWriteFailure
deriving Repr, DecidableEq

/-- The contact record (`class Contact` / `interface IContact`). -/
structure Contact where
  id : Str
  firstName : Str
  lastName : Str
  email : Str
  phone : Option Str
  address : Option Str
  createdAt : Nat
  updatedAt : Nat
deriving Repr, DecidableEq

/-- The plain-data shape produced by `Contact.toJSON` (`interface IContact`). -/
structure IContact where
  id : Str
  firstName : Str
  lastName : Str
  email : Str
  phone : Option Str
  address : Option Str
  createdAt : Nat
  updatedAt : Nat
deriving Repr, DecidableEq

/-- The `Contact` constructor.  `generatedId` models the result of
`this.generateId()` and `now` models `new Date()`.  The source line
`this.id = id || this.generateId()` falls back to the generated id when `id`
is `undefined` (`none`) or the empty string (falsy). -/
def Contact.construct (firstName lastName email : Str) (phone address : Option Str)
    (id : Option Str) (generatedId : Str) (now : Nat) : Contact :=
  { id := if (id.getD []).isEmpty then generatedId else id.getD []
    firstName := firstName
    lastName := lastName
    email := email
    phone := phone
    address := address
    createdAt := now
    updatedAt := now }

/-- `Contact.getFullName`: trimmed concatenation of first and last name. -/
def Contact.getFullName (c : Contact) : Str :=
  trimStr (c.firstName ++ [' '] ++ c.lastName)

/-- A partial update (`Partial<Omit<IContact, 'id' | 'createdAt' | 'updatedAt'>>`).
`none` means the key is absent.  For the optional fields `phone`/`address`
the inner `Option` is the stored value itself (a present key may carry
`undefined`, which `Object.assign` copies). -/
structure UpdateData where
  firstName : Option Str
  lastName : Option Str
  email : Option Str
  phone : Option (Option Str)
  address : Option (Option Str)
deriving Repr, DecidableEq

/-- A partial update with every key absent. -/
def UpdateData.empty : UpdateData := ⟨none, none, none, none, none⟩

/-- `Contact.update`: `Object.assign(this, data)` overwrites exactly the keys
present in `data`, then `this.updatedAt = new Date()`. -/
def Contact.update (c : Contact) (data : UpdateData) (now : Nat) : Contact :=
  { id := c.id
    firstName := data.firstName.getD c.firstName
    lastName := data.lastName.getD c.lastName
    email := data.email.getD c.email
    phone := data.phone.getD c.phone
    address := data.address.getD c.address
    createdAt := c.createdAt
    updatedAt := now }

/-- `Contact.toJSON`: copies every field into a plain object. -/
def Contact.toJSON (c : Contact) : IContact :=
  { id := c.id
    firstName := c.firstName
    lastName := c.lastName
    email := c.email
    phone := c.phone
    address := c.address
    createdAt := c.createdAt
    updatedAt := c.updatedAt }

/-- `Contact.fromJSON`: calls the constructor with `data.id`, then overwrites
`createdAt`/`updatedAt` with `new Date(data.createdAt)` / `new Date(data.updatedAt)`
(cloning a `Date` preserves the instant, so the timestamps are copied). -/
def Contact.fromJSON (data : IContact) (generatedId : Str) (now : Nat) : Contact :=
  let c := Contact.construct data.firstName data.lastName data.email
    data.phone data.address (some data.id) generatedId now
  { c with createdAt := data.createdAt, updatedAt := data.updatedAt }

/-- The `ContactManager` state together with its storage port
(`LocalStorageManager`) and the DOM search box it reads. -/
structure ContactManager where
  contacts : List Contact
  filteredContacts : List Contact
  searchInputValue : Str
  stored : Option (List IContact)
  saveFails : Bool
  saveCalls : Nat
deriving Repr, DecidableEq

/-- `findById`: first contact whose `id` equals the argument. -/
def ContactManager.findById (m : ContactManager) (id : Str) : Option Contact :=
  m.contacts.find? (fun c => c.id == id)

/-- `findByEmail`: first contact whose lower-cased email equals the
lower-cased argument. -/
def ContactManager.findByEmail (m : ContactManager) (email : Str) : Option Contact :=
  m.contacts.find? (fun c => toLowerStr c.email == toLowerStr email)

/-- `saveContacts`: `this.storage.save(this.contacts)`.  The port serialises
each record with `toJSON` and stores the blob; when the store rejects the
write it throws (`Failed to save contacts`). -/
def ContactManager.saveContacts (m : ContactManager) : ContactManager × Except CMError Unit :=
  let m1 := { m with saveCalls := m.saveCalls + 1 }
  if m1.saveFails then
    (m1, Except.error CMError.persistenceWriteFailure)
  else
    ({ m1 with stored := some (m1.contacts.map Contact.toJSON) }, Except.ok ())

/-- The filter predicate of `searchContacts`: the already lower-cased and
trimmed `searchTerm` occurs in the first name, last name, email or full name
(each lower-cased). -/
def contactMatches (c : Contact) (searchTerm : Str) : Bool :=
  strIncludes (toLowerStr c.firstName) searchTerm ||
  strIncludes (toLowerStr c.lastName) searchTerm ||
  strIncludes (toLowerStr c.email) searchTerm ||
  strIncludes (toLowerStr c.getFullName) searchTerm

/-- `searchContacts(query)`: empty or whitespace-only query resets the
filtered view to a copy of the canonical collection; otherwise the view is
the canonical collection filtered by `query.toLowerCase().trim()`.
Returns the new state together with the returned array. -/
def ContactManager.searchContacts (m : ContactManager) (query : Str) :
    ContactManager × List Contact :=
  if (trimStr query).isEmpty then
    ({ m with filteredContacts := m.contacts }, m.contacts)
  else
    let searchTerm := trimStr (toLowerStr query)
    let fc := m.contacts.filter (fun c => contactMatches c searchTerm)
    ({ m with filteredContacts := fc }, fc)

/-- `applyCurrentFilter`: re-reads the search box (`searchInputValue`,
modelling `document.getElementById('searchInput').value` in the running app)
and re-applies it; with a blank box the filtered view is reset to a copy of
the canonical collection. -/
def ContactManager.applyCurrentFilter (m : ContactManager) : ContactManager :=
  if (trimStr m.searchInputValue).isEmpty then
    { m with filteredContacts := m.contacts }
  else
    (m.searchContacts m.searchInputValue).1

/-- The UI search handler: typing stores the query in the search box and
immediately calls `searchContacts` with it. -/
def ContactManager.handleSearch (m : ContactManager) (q : Str) : ContactManager :=
  ({ m with searchInputValue := q }.searchContacts q).1

/-- The input of `addContact` (`Omit<IContact, 'id' | 'createdAt' | 'updatedAt'>`). -/
structure ContactData where
  firstName : Str
  lastName : Str
  email : Str
  phone : Option Str
  address : Option Str
deriving Repr, DecidableEq

/-- `addContact`: duplicate-email check, construct, push, save, re-filter.
The push happens before the save, so a failing save propagates as an error
while the new record is already in the canonical collection. -/
def ContactManager.addContact (m : ContactManager) (data : ContactData)
    (generatedId : Str) (now : Nat) : ContactManager × Except CMError Contact :=
  match m.findByEmail data.email with
  | some _ => (m, Except.error CMError.duplicateEmail)
  | none =>
    let contact := Contact.construct data.firstName data.lastName data.email
      data.phone data.address none generatedId now
    let m1 := { m with contacts := m.contacts ++ [contact] }
    match m1.saveContacts with
    | (m2, Except.error e) => (m2, Except.error e)
    | (m2, Except.ok _) => (m2.applyCurrentFilter, Except.ok contact)

/-- The guard `updateData.email && updateData.email !== contact.email` of
`updateContact`: the email key is present, its value is truthy (a non-empty
string) and differs character-for-character from the current email. -/
def emailGuard (e : Option Str) (current : Str) : Bool :=
  match e with
  | none => false
  | some s => !s.isEmpty && s != current

/-- `updateContact`: find the record, run the duplicate-email guard, mutate
the record in place (modelled by `List.set` at the index of the first record
with that id), save, re-filter. -/
def ContactManager.updateContact (m : ContactManager) (id : Str) (data : UpdateData)
    (now : Nat) : ContactManager × Except CMError Contact :=
  match m.findById id with
  | none => (m, Except.error CMError.notFound)
  | some contact =>
    let dup : Bool :=
      if emailGuard data.email contact.email then
        match m.findByEmail (data.email.getD []) with
        | some existing => existing.id != id
        | none => false
      else false
    if dup then (m, Except.error CMError.duplicateEmail)
    else
      let updated := contact.update data now
      let m1 := { m with
        contacts := m.contacts.set (m.contacts.findIdx (fun c : Contact => c.id == id)) updated }
      match m1.saveContacts with
      | (m2, Except.error e) => (m2, Except.error e)
      | (m2, Except.ok _) => (m2.applyCurrentFilter, Except.ok updated)

/-- `deleteContact`: `findIndex`, return `false` when `-1`, otherwise
`splice`, save, re-filter, return `true`. -/
def ContactManager.deleteContact (m : ContactManager) (id : Str) :
    ContactManager × Except CMError Bool :=
  match m.contacts.findIdx? (fun c : Contact => c.id == id) with
  | none => (m, Except.ok false)
  | some idx =>
    let m1 := { m with contacts := m.contacts.eraseIdx idx }
    match m1.saveContacts with
    | (m2, Except.error e) => (m2, Except.error e)
    | (m2, Except.ok _) => (m2.applyCurrentFilter, Except.ok true)

/-- `clearAllContacts`: empties both collections and clears the store
(`storage.clear()` never throws to the caller). -/
def ContactManager.clearAllContacts (m : ContactManager) : ContactManager :=
  { m with contacts := [], filteredContacts := [], stored := none }

/-- `getAllContacts`: defensive copy of the canonical collection. -/
def ContactManager.getAllContacts (m : ContactManager) : List Contact := m.contacts

/-- `getFilteredContacts`: defensive copy of the filtered view. -/
def ContactManager.getFilteredContacts (m : ContactManager) : List Contact :=
  m.filteredContacts

/-- The case-insensitive email uniqueness invariant: the lower-cased emails
of the canonical collection are pairwise distinct. -/
def emailsUnique (l : List Contact) : Prop :=
  (l.map (fun c => toLowerStr c.email)).Nodup

/-- The id uniqueness invariant. -/
def idsUnique (l : List Contact) : Prop :=
  (l.map (fun c => c.id)).Nodup

/-- An empty directory wired to a working store, as produced by
`new ContactManager(storage)` on first run (`load` returns `[]`). -/
def ContactManager.initial : ContactManager :=
  { contacts := []
    filteredContacts := []
    searchInputValue := []
    stored := none
    saveFails := false
    saveCalls := 0 }

/-- The record constructed and appended by a successful `addContact`. -/
def newContact (d : ContactData) (generatedId : Str) (now : Nat) : Contact :=
  Contact.construct d.firstName d.lastName d.email d.phone d.address none generatedId now

/-- Modelled from the spec's words, for comparison with `searchContacts`:
a record matches a query when its first name, last name, email, or full name
contains the query as a case-insensitive substring (no trimming of the
query is mentioned). -/
def specMatches (c : Contact) (query : Str) : Bool :=
  strIncludes (toLowerStr c.firstName) (toLowerStr query) ||
  strIncludes (toLowerStr c.lastName) (toLowerStr query) ||
  strIncludes (toLowerStr c.email) (toLowerStr query) ||
  strIncludes (toLowerStr c.getFullName) (toLowerStr query)

/-! ## Sample data for witnesses and counterexamples -/

/-- A sample record. -/
def adaContact : Contact :=
  { id := "id1".toList
    firstName := "Ada".toList
    lastName := "Lovelace".toList
    email := "ada@x.com".toList
    phone := none
    address := none
    createdAt := 1
    updatedAt := 1 }

/-- A second sample record with a different id and email. -/
def bobContact : Contact :=
  { id := "id2".toList
    firstName := "Bob".toList
    lastName := "Turing".toList
    email := "bob@x.com".toList
    phone := none
    address := none
    createdAt := 2
    updatedAt := 2 }

/-- The input fields of a third record. -/
def craData : ContactData :=
  { firstName := "Cra".toList
    lastName := "Hopper".toList
    email := "cra@x.com".toList
    phone := none
    address := none }

/-- A directory holding the two sample records, blank search box, working store. -/
def twoContactManager : ContactManager :=
  { contacts := [adaContact, bobContact]
    filteredContacts := [adaContact, bobContact]
    searchInputValue := []
    stored := none
    saveFails := false
    saveCalls := 2 }

/-- The two-record directory with the active query "ada" in the search box. -/
def adaQueryManager : ContactManager :=
  { contacts := [adaContact, bobContact]
    filteredContacts := [adaContact]
    searchInputValue := "ada".toList
    stored := none
    saveFails := false
    saveCalls := 2 }

/-- The reachable trace that breaks the email-uniqueness invariant: add two
records with distinct emails, then update each of them with the partial
`{email: ""}`.  The falsy empty string skips the duplicate-email guard in
`updateContact`, yet `Object.assign` still overwrites the field, so both
records end up with the email `""`. -/
def emptyEmailTrace : ContactManager :=
  let s1 := (ContactManager.initial.addContact
    ⟨"Ada".toList, "Lovelace".toList, "a@x.com".toList, none, none⟩ "id1".toList 1).1
  let s2 := (s1.addContact
    ⟨"Bob".toList, "Turing".toList, "b@x.com".toList, none, none⟩ "id2".toList 2).1
  let s3 := (s2.updateContact "id1".toList ⟨none, none, some [], none, none⟩ 3).1
  (s3.updateContact "id2".toList ⟨none, none, some [], none, none⟩ 4).1

/-! ## String lemmas -/

/-- Lower-casing of the 26 candidate code points never yields whitespace. -/
theorem isWhitespace_ofNat_shift (m : Nat) (h1 : 97 ≤ m) (h2 : m ≤ 122) :
    (Char.ofNat m).isWhitespace = false := by
  interval_cases m <;> decide

/-- `Char.toLower` neither creates nor destroys whitespace. -/
theorem isWhitespace_toLower (c : Char) :
    (Char.toLower c).isWhitespace = c.isWhitespace := by
  by_cases h : c.isWhitespace
  · have h4 : ((c = ' ' ∨ c = '\t') ∨ c = '\x0d') ∨ c = '\n' := by
      simpa [Char.isWhitespace] using h
    rcases h4 with ((rfl | rfl) | rfl) | rfl <;> decide
  · have hf : c.isWhitespace = false := by simpa using h
    simp only [Char.toLower]
    split
    · next hc =>
      rw [hf, isWhitespace_ofNat_shift (Char.toNat c + 32) (by omega) (by omega)]
    · exact hf.trans hf.symm ▸ rfl

/-- `dropWhile` of whitespace commutes with lower-casing. -/
theorem dropWhile_toLowerStr (s : Str) :
    (toLowerStr s).dropWhile Char.isWhitespace =
      toLowerStr (s.dropWhile Char.isWhitespace) := by
  unfold toLowerStr
  rw [List.dropWhile_map]
  have hp : (Char.isWhitespace ∘ Char.toLower) = Char.isWhitespace :=
    funext isWhitespace_toLower
  rw [hp]

/-- `rdropWhile` of whitespace commutes with lower-casing. -/
theorem rdropWhile_toLowerStr (s : Str) :
    List.rdropWhile Char.isWhitespace (toLowerStr s) =
      toLowerStr (List.rdropWhile Char.isWhitespace s) := by
  unfold toLowerStr List.rdropWhile
  rw [← List.map_reverse, List.dropWhile_map]
  have hp : (Char.isWhitespace ∘ Char.toLower) = Char.isWhitespace :=
    funext isWhitespace_toLower
  rw [hp, List.map_reverse]

/-- Trimming commutes with lower-casing. -/
theorem toLowerStr_trimStr (s : Str) :
    trimStr (toLowerStr s) = toLowerStr (trimStr s) := by
  unfold trimStr
  rw [dropWhile_toLowerStr, rdropWhile_toLowerStr]

/-- The front-trimmed part of a trimmed string needs no further trimming. -/
theorem dropWhile_trimStr (s : Str) :
    (trimStr s).dropWhile Char.isWhitespace = trimStr s := by
  unfold trimStr
  have hpre := List.rdropWhile_prefix Char.isWhitespace (s.dropWhile Char.isWhitespace)
  obtain ⟨t, ht⟩ := hpre
  cases hr : List.rdropWhile Char.isWhitespace (s.dropWhile Char.isWhitespace) with
  | nil => simp
  | cons x xs =>
    rw [hr] at ht
    have hx : Char.isWhitespace x = false := by
      have h0 := List.head?_dropWhile_not Char.isWhitespace s
      rw [← ht] at h0
      simpa using h0
    rw [List.dropWhile_cons_of_neg]
    simp [hx]

/-- Trimming is idempotent. -/
theorem trimStr_idem (s : Str) : trimStr (trimStr s) = trimStr s := by
  conv_lhs => rw [trimStr]
  rw [dropWhile_trimStr]
  conv_lhs => rw [trimStr]
  rw [List.rdropWhile_idempotent]
  rfl

/-! ## List helper lemmas -/

/-- Replacing an element by something not occurring in the list keeps the
list duplicate-free. -/
theorem nodup_set_of_not_mem {α : Type} (l : List α) (i : Nat) (a : α)
    (hnd : l.Nodup) (ha : a ∉ l) : (l.set i a).Nodup := by
  induction l generalizing i with
  | nil => simp
  | cons x xs ih =>
    rcases List.nodup_cons.1 hnd with ⟨hx, hxs⟩
    cases i with
    | zero =>
      rw [List.set_cons_zero]
      refine List.nodup_cons.2 ⟨?_, hxs⟩
      intro hmem
      exact ha (List.mem_cons_of_mem x hmem)
    | succ n =>
      rw [List.set_cons_succ]
      refine List.nodup_cons.2 ⟨?_, ih n hxs (fun hmem => ha (List.mem_cons_of_mem x hmem))⟩
      intro hmem
      rcases List.mem_or_eq_of_mem_set hmem with h1 | rfl
      · exact hx h1
      · exact ha (List.mem_cons_self x xs)

/-- A successful scan with `find?` splits the list at the first hit, and
`set` at `findIdx` replaces exactly that hit. -/
theorem set_findIdx_split {α : Type} (p : α → Bool) (l : List α) (a b : α)
    (h : l.find? p = some a) :
    ∃ l1 l2, l = l1 ++ a :: l2 ∧ (∀ x ∈ l1, p x = false) ∧ p a = true ∧
      l.set (l.findIdx p) b = l1 ++ b :: l2 := by
  induction l with
  | nil => simp at h
  | cons x xs ih =>
    rw [List.find?_cons] at h
    cases hp : p x with
    | true =>
      rw [hp] at h
      injection h with h
      subst h
      refine ⟨[], xs, by simp, by simp, hp, ?_⟩
      rw [List.findIdx_cons, hp]
      simp
    | false =>
      rw [hp] at h
      obtain ⟨l1, l2, heq, hl1, hpa, hset⟩ := ih h
      refine ⟨x :: l1, l2, by simp [heq], ?_, hpa, ?_⟩
      · intro y hy
        rcases List.mem_cons.1 hy with rfl | hy2
        · exact hp
        · exact hl1 y hy2
      · rw [List.findIdx_cons, hp]
        simp only [cond_false]
        rw [List.set_cons_succ, hset]
        simp

/-! ## State-shape lemmas for the manager operations -/

/-- Closed form of `saveContacts`. -/
theorem saveContacts_eq (m : ContactManager) :
    m.saveContacts =
      (if m.saveFails then
        ({ m with saveCalls := m.saveCalls + 1 }, Except.error CMError.persistenceWriteFailure)
      else
        ({ m with saveCalls := m.saveCalls + 1,
                  stored := some (m.contacts.map Contact.toJSON) }, Except.ok ())) := by
  unfold ContactManager.saveContacts
  by_cases h : m.saveFails <;> simp [h]

/-- `searchContacts` only rewrites the filtered view. -/
theorem searchContacts_fst (m : ContactManager) (q : Str) :
    (m.searchContacts q).1 =
      { m with filteredContacts :=
          if (trimStr q).isEmpty then m.contacts
          else m.contacts.filter (fun c => contactMatches c (trimStr (toLowerStr q))) } := by
  unfold ContactManager.searchContacts
  by_cases h : (trimStr q).isEmpty <;> simp [h]

/-- The array returned by `searchContacts` is the new filtered view. -/
theorem searchContacts_snd (m : ContactManager) (q : Str) :
    (m.searchContacts q).2 = (m.searchContacts q).1.filteredContacts := by
  unfold ContactManager.searchContacts
  by_cases h : (trimStr q).isEmpty <;> simp [h]

/-- `applyCurrentFilter` only rewrites the filtered view, from the search box. -/
theorem applyCurrentFilter_eq (m : ContactManager) :
    m.applyCurrentFilter =
      { m with filteredContacts :=
          (if (trimStr m.searchInputValue).isEmpty then m.contacts
           else m.contacts.filter
            (fun c => contactMatches c (trimStr (toLowerStr m.searchInputValue)))) } := by
  unfold ContactManager.applyCurrentFilter
  by_cases h : (trimStr m.searchInputValue).isEmpty
  · simp [h]
  · rw [if_neg h, searchContacts_fst]

/-- The code predicate applied to the lower-cased trimmed query coincides
with the spec predicate applied to the trimmed query. -/
theorem contactMatches_trim_spec (c : Contact) (q : Str) :
    contactMatches c (trimStr (toLowerStr q)) = specMatches c (trimStr q) := by
  unfold contactMatches specMatches
  rw [toLowerStr_trimStr]

/-- C10: searching is invariant under trimming the query: `Search(q)` and
`Search(trim(q))` produce identical results (same new state, same returned
array), so padding a query with surrounding whitespace never changes the
filtered view. -/
theorem searchContacts_trim_invariant (m : ContactManager) (q : Str) :
    m.searchContacts q = m.searchContacts (trimStr q) := by
  unfold ContactManager.searchContacts
  rw [trimStr_idem, ← toLowerStr_trimStr, trimStr_idem]

/-- C3 counterexample: with one record whose first name is "ada" and the
query " ada " (padded with spaces), the code's filtered view contains the
record, but the view described by the claim (records containing the query
" ada " as a case-insensitive substring) is empty: the claim's equality
fails because the code trims the query before matching. -/
theorem searchContacts_spec_query_counterexample :
    ¬ (({ contacts := [adaContact], filteredContacts := [adaContact],
          searchInputValue := [], stored := none, saveFails := false,
          saveCalls := 0 : ContactManager }.searchContacts " ada ".toList).1.filteredContacts =
        [adaContact].filter (fun c => specMatches c " ada ".toList)) := by
  decide

/-- C3 amended: for every directory state and query, if the query is empty
or whitespace-only then `Search` makes the filtered view (and its returned
array) equal to the canonical collection, same members and order; otherwise
the filtered view equals the canonical collection, in canonical order,
restricted to records whose first name, last name, email, or full name
contains the TRIMMED query as a case-insensitive substring. -/
theorem searchContacts_spec (m : ContactManager) (q : Str) :
    (m.searchContacts q).1.filteredContacts =
      (if (trimStr q).isEmpty then m.contacts
       else m.contacts.filter (fun c => specMatches c (trimStr q))) ∧
    (m.searchContacts q).2 = (m.searchContacts q).1.filteredContacts ∧
    (m.searchContacts q).1.contacts = m.contacts := by
  refine ⟨?_, searchContacts_snd m q, ?_⟩
  · rw [searchContacts_fst]
    by_cases h : (trimStr q).isEmpty
    · simp [h]
    · simp only [h, if_false]
      exact List.filter_congr (fun c _ => contactMatches_trim_spec c q)
  · rw [searchContacts_fst]

/-- C6: serialisation round-trip.  `fromJSON (toJSON r)` restores every
field of `r`, timestamps included, for any record whose id is non-empty
(every record the program builds has a non-empty id, since `generateId`
returns a non-empty string and the constructor falls back to it).  The
`generatedId` and `now` arguments of the reconstruction are irrelevant. -/
theorem fromJSON_toJSON (r : Contact) (generatedId : Str) (now : Nat)
    (h : r.id ≠ []) : Contact.fromJSON r.toJSON generatedId now = r := by
  obtain ⟨id, f, l, e, p, a, ca, ua⟩ := r
  simp only [Contact.toJSON, Contact.fromJSON, Contact.construct] at *
  cases id with
  | nil => exact absurd rfl h
  | cons c cs => simp

/-- C6 witness: the round trip restores the sample record exactly. -/
theorem fromJSON_toJSON_witness :
    adaContact.id ≠ [] ∧
      Contact.fromJSON adaContact.toJSON "zz".toList 99 = adaContact :=
  ⟨by decide, fromJSON_toJSON adaContact "zz".toList 99 (by decide)⟩

/-- C9: deleting an unknown id returns `false` without raising, and the
whole state — canonical collection and filtered view included — is
unchanged. -/
theorem deleteContact_unknown (m : ContactManager) (i : Str)
    (h : ∀ c ∈ m.contacts, c.id ≠ i) :
    m.deleteContact i = (m, Except.ok false) := by
  unfold ContactManager.deleteContact
  have hn : m.contacts.findIdx? (fun c : Contact => c.id == i) = none := by
    rw [List.findIdx?_eq_none_iff]
    intro c hc
    simpa using h c hc
  rw [hn]

/-- C9 witness: deleting the id "zz" from the two-record directory returns
`false` and leaves the state untouched. -/
theorem deleteContact_unknown_witness :
    (∀ c ∈ twoContactManager.contacts, c.id ≠ "zz".toList) ∧
      twoContactManager.deleteContact "zz".toList = (twoContactManager, Except.ok false) :=
  ⟨by decide, deleteContact_unknown twoContactManager "zz".toList (by decide)⟩

/-- C4: adding a record whose email matches an existing one
case-insensitively (any case variant) fails with DuplicateEmail and leaves
the whole state unchanged — same canonical collection, and in particular no
save call reaches the persistence port (`saveCalls` is untouched). -/
theorem addContact_duplicate (m : ContactManager) (d : ContactData)
    (generatedId : Str) (now : Nat)
    (h : ∃ c ∈ m.contacts, toLowerStr c.email = toLowerStr d.email) :
    m.addContact d generatedId now = (m, Except.error CMError.duplicateEmail) := by
  unfold ContactManager.addContact
  obtain ⟨c, hc, he⟩ := h
  have hx : ∃ x, m.findByEmail d.email = some x := by
    unfold ContactManager.findByEmail
    cases hf : m.contacts.find? (fun c : Contact => toLowerStr c.email == toLowerStr d.email) with
    | some x => exact ⟨x, rfl⟩
    | none =>
      rw [List.find?_eq_none] at hf
      exact absurd (by simpa using he) (by simpa using hf c hc)
  obtain ⟨x, hxeq⟩ := hx
  rw [hxeq]

/-- C4 witness: adding "ADA@X.COM" to the directory that already holds
"ada@x.com" raises DuplicateEmail with the state (size, members, save
count) unchanged. -/
theorem addContact_duplicate_witness :
    (∃ c ∈ twoContactManager.contacts,
        toLowerStr c.email = toLowerStr "ADA@X.COM".toList) ∧
      twoContactManager.addContact
          ⟨"Al".toList, "T".toList, "ADA@X.COM".toList, none, none⟩ "id9".toList 9 =
        (twoContactManager, Except.error CMError.duplicateEmail) :=
  ⟨by decide, addContact_duplicate twoContactManager
    ⟨"Al".toList, "T".toList, "ADA@X.COM".toList, none, none⟩ "id9".toList 9 (by decide)⟩

/-- C7: when the uniqueness check passes but the persistence port rejects
the save, `addContact` propagates PersistenceWriteFailure while the new
record stays appended to the canonical collection — no rollback. -/
theorem addContact_save_failure (m : ContactManager) (d : ContactData)
    (generatedId : Str) (now : Nat)
    (hnew : ∀ c ∈ m.contacts, toLowerStr c.email ≠ toLowerStr d.email)
    (hsf : m.saveFails = true) :
    (m.addContact d generatedId now).2 = Except.error CMError.persistenceWriteFailure ∧
    (m.addContact d generatedId now).1.contacts =
      m.contacts ++ [newContact d generatedId now] := by
  unfold ContactManager.addContact
  have hfind : m.findByEmail d.email = none := by
    unfold ContactManager.findByEmail
    rw [List.find?_eq_none]
    intro c hc
    simpa using hnew c hc
  rw [hfind]
  simp only [saveContacts_eq]
  simp [hsf, newContact]

/-- C7 witness: with a failing store, adding a fresh record to the sample
directory raises PersistenceWriteFailure and the record is still appended. -/
theorem addContact_save_failure_witness :
    (∀ c ∈ ({ twoContactManager with saveFails := true } : ContactManager).contacts,
        toLowerStr c.email ≠ toLowerStr craData.email) ∧
      (({ twoContactManager with saveFails := true } : ContactManager).addContact
          craData "id3".toList 9).2 = Except.error CMError.persistenceWriteFailure ∧
      (({ twoContactManager with saveFails := true } : ContactManager).addContact
          craData "id3".toList 9).1.contacts =
        ({ twoContactManager with saveFails := true } : ContactManager).contacts ++
          [newContact craData "id3".toList 9] :=
  ⟨by decide,
    addContact_save_failure { twoContactManager with saveFails := true }
      craData "id3".toList 9 (by decide) (by decide)⟩

/-- Closed form of a successful `addContact` (no duplicate, working store):
the new record is appended, saved, and the active query re-applied. -/
theorem addContact_success_eq (m : ContactManager) (d : ContactData)
    (generatedId : Str) (now : Nat)
    (hfind : m.findByEmail d.email = none) (hsf : m.saveFails = false) :
    m.addContact d generatedId now =
      (({ m with contacts := m.contacts ++ [newContact d generatedId now],
                 stored := some ((m.contacts ++ [newContact d generatedId now]).map Contact.toJSON),
                 saveCalls := m.saveCalls + 1 } : ContactManager).applyCurrentFilter,
        Except.ok (newContact d generatedId now)) := by
  unfold ContactManager.addContact
  rw [hfind]
  simp only [saveContacts_eq]
  simp [hsf, newContact]

/-- A successful `updateContact` re-applies the query remembered in the
search box: the box is untouched and the filtered view afterwards is the
new canonical collection filtered by it (the full copy for a blank box). -/
theorem updateContact_ok_filter (m : ContactManager) (i : Str) (data : UpdateData)
    (now : Nat) (m2 : ContactManager) (c2 : Contact)
    (h : m.updateContact i data now = (m2, Except.ok c2)) :
    m2.searchInputValue = m.searchInputValue ∧
    m2.filteredContacts =
      (if (trimStr m.searchInputValue).isEmpty then m2.contacts
       else m2.contacts.filter
        (fun x => contactMatches x (trimStr (toLowerStr m.searchInputValue)))) := by
  unfold ContactManager.updateContact at h
  cases hfid : m.findById i with
  | none =>
    rw [hfid] at h
    exact absurd (congrArg Prod.snd h) (by simp)
  | some contact =>
    rw [hfid] at h
    dsimp only [] at h
    simp only [saveContacts_eq] at h
    cases hg : emailGuard data.email contact.email with
    | true =>
      rw [hg] at h
      cases hfe : m.findByEmail (data.email.getD []) with
      | some ex =>
        rw [hfe] at h
        cases hni : ex.id != i with
        | true =>
          simp only [hni] at h
          simp at h
        | false =>
          simp only [hni] at h
          cases hs : m.saveFails with
          | true => simp [hs] at h
          | false =>
            simp [hs] at h
            obtain ⟨h1, h2⟩ := h
            rw [← h1, applyCurrentFilter_eq]
            constructor <;> simp
      | none =>
        rw [hfe] at h
        cases hs : m.saveFails with
        | true => simp [hs] at h
        | false =>
          simp [hs] at h
          obtain ⟨h1, h2⟩ := h
          rw [← h1, applyCurrentFilter_eq]
          constructor <;> simp
    | false =>
      rw [hg] at h
      cases hs : m.saveFails with
      | true => simp [hs] at h
      | false =>
        simp [hs] at h
        obtain ⟨h1, h2⟩ := h
        rw [← h1, applyCurrentFilter_eq]
        constructor <;> simp

/-- A successful `deleteContact` re-applies the query remembered in the
search box, in the same sense. -/
theorem deleteContact_ok_filter (m : ContactManager) (i : Str) (m2 : ContactManager)
    (h : m.deleteContact i = (m2, Except.ok true)) :
    m2.searchInputValue = m.searchInputValue ∧
    m2.filteredContacts =
      (if (trimStr m.searchInputValue).isEmpty then m2.contacts
       else m2.contacts.filter
        (fun x => contactMatches x (trimStr (toLowerStr m.searchInputValue)))) := by
  unfold ContactManager.deleteContact at h
  cases hf : m.contacts.findIdx? (fun c : Contact => c.id == i) with
  | none =>
    rw [hf] at h
    exact absurd (congrArg Prod.snd h) (by simp)
  | some idx =>
    rw [hf] at h
    dsimp only [] at h
    simp only [saveContacts_eq] at h
    cases hs : m.saveFails with
    | true => simp [hs] at h
    | false =>
      simp [hs] at h
      rw [← h, applyCurrentFilter_eq]
      constructor <;> simp

/-- C2: the active query is remembered — none of `addContact`,
`updateContact`, `deleteContact` touches the search box — and after every
successful Add, Update and Delete the filtered view is recomputed against
that remembered query: it equals the new canonical collection filtered by
the query (the full copy when the query is blank).  For Add, the new record
is appended in insertion order, so with a non-empty active query it appears
in the filtered view iff it matches, and the view order is canonical
insertion order restricted to matches. -/
theorem mutations_reapply_active_query (m : ContactManager) :
    (∀ d generatedId now m2 c, m.addContact d generatedId now = (m2, Except.ok c) →
      m2.searchInputValue = m.searchInputValue ∧
      m2.contacts = m.contacts ++ [c] ∧
      m2.filteredContacts =
        (if (trimStr m.searchInputValue).isEmpty then m2.contacts
         else m2.contacts.filter
          (fun x => contactMatches x (trimStr (toLowerStr m.searchInputValue)))) ∧
      ((trimStr m.searchInputValue).isEmpty = false →
        m2.filteredContacts = m2.contacts.filter
          (fun x => contactMatches x (trimStr (toLowerStr m.searchInputValue))) ∧
        (c ∈ m2.filteredContacts ↔
          contactMatches c (trimStr (toLowerStr m.searchInputValue)) = true))) ∧
    (∀ i data now m2 c2, m.updateContact i data now = (m2, Except.ok c2) →
      m2.searchInputValue = m.searchInputValue ∧
      m2.filteredContacts =
        (if (trimStr m.searchInputValue).isEmpty then m2.contacts
         else m2.contacts.filter
          (fun x => contactMatches x (trimStr (toLowerStr m.searchInputValue))))) ∧
    (∀ i m2, m.deleteContact i = (m2, Except.ok true) →
      m2.searchInputValue = m.searchInputValue ∧
      m2.filteredContacts =
        (if (trimStr m.searchInputValue).isEmpty then m2.contacts
         else m2.contacts.filter
          (fun x => contactMatches x (trimStr (toLowerStr m.searchInputValue))))) := by
  refine ⟨?_, fun i data now m2 c2 h => updateContact_ok_filter m i data now m2 c2 h,
    fun i m2 h => deleteContact_ok_filter m i m2 h⟩
  intro d generatedId now m2 c h
  cases hfind : m.findByEmail d.email with
  | some x =>
    unfold ContactManager.addContact at h
    rw [hfind] at h
    simp at h
  | none =>
    cases hs : m.saveFails with
    | true =>
      unfold ContactManager.addContact at h
      rw [hfind] at h
      simp only [saveContacts_eq] at h
      simp [hs] at h
    | false =>
      rw [addContact_success_eq m d generatedId now hfind hs] at h
      have h1 : _ = m2 := congrArg Prod.fst h
      have h2 := congrArg Prod.snd h
      simp only [] at h1 h2
      have hc : newContact d generatedId now = c := by
        simpa using h2
      subst hc
      subst h1
      rw [applyCurrentFilter_eq]
      refine ⟨by simp, by simp, by simp, ?_⟩
      intro hq
      constructor
      · simp [hq]
      · simp [hq, List.mem_filter]

/-- C2 witness: with the query "ada" active in the two-record directory, a
fresh add, a phone-only update and a delete each leave the filtered view
equal to the new canonical collection filtered by "ada", and the added
non-matching record is absent from the view. -/
theorem mutations_reapply_active_query_witness :
    ((adaQueryManager.addContact craData "id3".toList 9).1.filteredContacts =
      (if (trimStr adaQueryManager.searchInputValue).isEmpty
       then (adaQueryManager.addContact craData "id3".toList 9).1.contacts
       else (adaQueryManager.addContact craData "id3".toList 9).1.contacts.filter
        (fun x => contactMatches x (trimStr (toLowerStr adaQueryManager.searchInputValue))))) ∧
    ((trimStr adaQueryManager.searchInputValue).isEmpty = false) ∧
    ((newContact craData "id3".toList 9 ∈
        (adaQueryManager.addContact craData "id3".toList 9).1.filteredContacts ↔
      contactMatches (newContact craData "id3".toList 9)
        (trimStr (toLowerStr adaQueryManager.searchInputValue)) = true)) ∧
    ((adaQueryManager.updateContact "id1".toList
        ⟨none, none, none, some (some "555".toList), none⟩ 9).1.filteredContacts =
      (if (trimStr adaQueryManager.searchInputValue).isEmpty
       then (adaQueryManager.updateContact "id1".toList
        ⟨none, none, none, some (some "555".toList), none⟩ 9).1.contacts
       else (adaQueryManager.updateContact "id1".toList
        ⟨none, none, none, some (some "555".toList), none⟩ 9).1.contacts.filter
        (fun x => contactMatches x (trimStr (toLowerStr adaQueryManager.searchInputValue))))) ∧
    ((adaQueryManager.deleteContact "id2".toList).1.filteredContacts =
      (if (trimStr adaQueryManager.searchInputValue).isEmpty
       then (adaQueryManager.deleteContact "id2".toList).1.contacts
       else (adaQueryManager.deleteContact "id2".toList).1.contacts.filter
        (fun x => contactMatches x (trimStr (toLowerStr adaQueryManager.searchInputValue))))) :=
  ⟨((mutations_reapply_active_query adaQueryManager).1 craData "id3".toList 9
      (adaQueryManager.addContact craData "id3".toList 9).1
      (newContact craData "id3".toList 9) rfl).2.2.1,
    by decide,
    (((mutations_reapply_active_query adaQueryManager).1 craData "id3".toList 9
      (adaQueryManager.addContact craData "id3".toList 9).1
      (newContact craData "id3".toList 9) rfl).2.2.2 (by decide)).2,
    ((mutations_reapply_active_query adaQueryManager).2.1 "id1".toList
      ⟨none, none, none, some (some "555".toList), none⟩ 9
      (adaQueryManager.updateContact "id1".toList
        ⟨none, none, none, some (some "555".toList), none⟩ 9).1
      (adaContact.update ⟨none, none, none, some (some "555".toList), none⟩ 9) rfl).2,
    ((mutations_reapply_active_query adaQueryManager).2.2 "id2".toList
      (adaQueryManager.deleteContact "id2".toList).1 rfl).2⟩

/-- Inversion of a successful `updateContact`: the target was found, the
returned record is the found record updated in place, and the canonical
collection is the old one with that record replaced at its position. -/
theorem updateContact_ok_inv (m : ContactManager) (i : Str) (data : UpdateData)
    (now : Nat) (m2 : ContactManager) (c2 : Contact)
    (h : m.updateContact i data now = (m2, Except.ok c2)) :
    ∃ contact, m.findById i = some contact ∧
      c2 = contact.update data now ∧
      m2.contacts = m.contacts.set
        (m.contacts.findIdx (fun c : Contact => c.id == i)) c2 := by
  unfold ContactManager.updateContact at h
  cases hfid : m.findById i with
  | none =>
    rw [hfid] at h
    exact absurd (congrArg Prod.snd h) (by simp)
  | some contact =>
    rw [hfid] at h
    dsimp only [] at h
    simp only [saveContacts_eq] at h
    refine ⟨contact, rfl, ?_⟩
    cases hg : emailGuard data.email contact.email with
    | true =>
      rw [hg] at h
      cases hfe : m.findByEmail (data.email.getD []) with
      | some ex =>
        rw [hfe] at h
        cases hni : ex.id != i with
        | true =>
          simp only [hni] at h
          simp at h
        | false =>
          simp only [hni] at h
          cases hs : m.saveFails with
          | true =>
            simp [hs] at h
          | false =>
            simp [hs] at h
            obtain ⟨h1, h2⟩ := h
            subst h2
            refine ⟨rfl, ?_⟩
            rw [← h1, applyCurrentFilter_eq]
      | none =>
        rw [hfe] at h
        cases hs : m.saveFails with
        | true =>
          simp [hs] at h
        | false =>
          simp [hs] at h
          obtain ⟨h1, h2⟩ := h
          subst h2
          refine ⟨rfl, ?_⟩
          rw [← h1, applyCurrentFilter_eq]
    | false =>
      rw [hg] at h
      cases hs : m.saveFails with
      | true =>
        simp [hs] at h
      | false =>
        simp [hs] at h
        obtain ⟨h1, h2⟩ := h
        subst h2
        refine ⟨rfl, ?_⟩
        rw [← h1, applyCurrentFilter_eq]

/-- C8: a successful `updateContact` mutates the found record in place:
the returned record is the found record with exactly the fields present in
the partial overwritten and `updatedAt` refreshed, while `id`, `createdAt`
and every field absent from the partial are unchanged; in the canonical
collection the record is replaced at its own position (same length, no new
record created). -/
theorem updateContact_frame (m : ContactManager) (i : Str) (data : UpdateData)
    (now : Nat) (contact : Contact) (m2 : ContactManager) (c2 : Contact)
    (hfid : m.findById i = some contact)
    (h : m.updateContact i data now = (m2, Except.ok c2)) :
    c2 = contact.update data now ∧
    c2.id = contact.id ∧
    c2.createdAt = contact.createdAt ∧
    c2.updatedAt = now ∧
    (data.firstName = none → c2.firstName = contact.firstName) ∧
    (∀ v, data.firstName = some v → c2.firstName = v) ∧
    (data.lastName = none → c2.lastName = contact.lastName) ∧
    (∀ v, data.lastName = some v → c2.lastName = v) ∧
    (data.email = none → c2.email = contact.email) ∧
    (∀ v, data.email = some v → c2.email = v) ∧
    (data.phone = none → c2.phone = contact.phone) ∧
    (∀ v, data.phone = some v → c2.phone = v) ∧
    (data.address = none → c2.address = contact.address) ∧
    (∀ v, data.address = some v → c2.address = v) ∧
    m2.contacts = m.contacts.set (m.contacts.findIdx (fun c : Contact => c.id == i)) c2 ∧
    m2.contacts.length = m.contacts.length := by
  obtain ⟨contact0, hfid0, hc2, hm2⟩ := updateContact_ok_inv m i data now m2 c2 h
  rw [hfid] at hfid0
  rw [Option.some.injEq] at hfid0
  subst hfid0
  subst hc2
  refine ⟨rfl, rfl, rfl, rfl, ?_, ?_, ?_, ?_, ?_, ?_, ?_, ?_, ?_, ?_, hm2, ?_⟩
  · intro hn; simp [Contact.update, hn]
  · intro v hv; simp [Contact.update, hv]
  · intro hn; simp [Contact.update, hn]
  · intro v hv; simp [Contact.update, hv]
  · intro hn; simp [Contact.update, hn]
  · intro v hv; simp [Contact.update, hv]
  · intro hn; simp [Contact.update, hn]
  · intro v hv; simp [Contact.update, hv]
  · intro hn; simp [Contact.update, hn]
  · intro v hv; simp [Contact.update, hv]
  · rw [hm2, List.length_set]

/-- C8 witness: updating only the phone of the first sample record leaves
its name, email, address and `createdAt` intact, refreshes `updatedAt`,
and replaces the record in place. -/
theorem updateContact_frame_witness :
    twoContactManager.findById "id1".toList = some adaContact ∧
      ((twoContactManager.updateContact "id1".toList
          ⟨none, none, none, some (some "555".toList), none⟩ 7).2 =
        Except.ok (adaContact.update ⟨none, none, none, some (some "555".toList), none⟩ 7)) ∧
      (adaContact.update ⟨none, none, none, some (some "555".toList), none⟩ 7).email =
        adaContact.email :=
  ⟨by decide, rfl, by
    have h := updateContact_frame twoContactManager "id1".toList
      ⟨none, none, none, some (some "555".toList), none⟩ 7 adaContact
      (twoContactManager.updateContact "id1".toList
        ⟨none, none, none, some (some "555".toList), none⟩ 7).1
      (adaContact.update ⟨none, none, none, some (some "555".toList), none⟩ 7)
      (by decide) rfl
    exact h.2.2.2.2.2.2.2.2.1 rfl⟩

/-- C5: updating a record's email to a case variant of itself is not a
duplicate.  In any directory satisfying the case-insensitive email
uniqueness invariant, with a working store, `Update(i, {email: e})` where
`e` equals the record's own email case-insensitively but not
character-for-character succeeds (no DuplicateEmail) and the resulting
record carries email `e` under the same id. -/
theorem updateContact_own_case_variant (m : ContactManager) (i : Str) (e : Str)
    (data : UpdateData) (now : Nat) (contact : Contact)
    (hem : emailsUnique m.contacts)
    (hsf : m.saveFails = false)
    (hfid : m.findById i = some contact)
    (hdata : data.email = some e)
    (hcase : toLowerStr e = toLowerStr contact.email)
    (hne : e ≠ contact.email) :
    (m.updateContact i data now).2 = Except.ok (contact.update data now) ∧
    (contact.update data now).email = e ∧
    (contact.update data now).id = i := by
  have hfid2 : m.contacts.find? (fun c : Contact => c.id == i) = some contact := hfid
  have hmem : contact ∈ m.contacts := List.mem_of_find?_eq_some hfid2
  have hpid : contact.id = i := by simpa using List.find?_some hfid2
  have hel : e ≠ [] := by
    intro hEnil
    subst hEnil
    have hcn : contact.email = [] := by
      have h0 := hcase.symm
      simpa [toLowerStr] using h0
    exact hne hcn.symm
  have hfEq : m.findByEmail e = some contact := by
    unfold ContactManager.findByEmail
    cases hf : m.contacts.find? (fun c : Contact => toLowerStr c.email == toLowerStr e) with
    | none =>
      rw [List.find?_eq_none] at hf
      exact absurd (by simp [hcase]) (hf contact hmem)
    | some x =>
      have hxmem := List.mem_of_find?_eq_some hf
      have hxp := List.find?_some hf
      have hxe : toLowerStr x.email = toLowerStr e := by simpa using hxp
      have hxc : x = contact := by
        apply List.inj_on_of_nodup_map hem hxmem hmem
        rw [hxe, hcase]
      rw [hxc]
  have hguard : emailGuard (some e) contact.email = true := by
    have hie : e.isEmpty = false := by
      cases e with
      | nil => exact absurd rfl hel
      | cons a t => rfl
    simp [emailGuard, hie, hne]
  refine ⟨?_, by simp [Contact.update, hdata], by simp [Contact.update, hpid]⟩
  unfold ContactManager.updateContact
  rw [hfid]
  dsimp only []
  rw [hdata]
  dsimp only [Option.getD]
  rw [hguard, hfEq]
  dsimp only []
  rw [hpid]
  simp only [bne_self_eq_false]
  simp only [saveContacts_eq, hsf]
  simp [hdata]

/-- C5 witness: in the two-record directory, updating "id1" from
"ada@x.com" to "ADA@X.com" succeeds and installs the case variant. -/
theorem updateContact_own_case_variant_witness :
    emailsUnique twoContactManager.contacts ∧
      (twoContactManager.updateContact "id1".toList
          ⟨none, none, some "ADA@X.com".toList, none, none⟩ 7).2 =
        Except.ok (adaContact.update ⟨none, none, some "ADA@X.com".toList, none, none⟩ 7) ∧
      (adaContact.update ⟨none, none, some "ADA@X.com".toList, none, none⟩ 7).email =
        "ADA@X.com".toList := by
  have h := updateContact_own_case_variant twoContactManager "id1".toList
    "ADA@X.com".toList ⟨none, none, some "ADA@X.com".toList, none, none⟩ 7 adaContact
    (by unfold emailsUnique; decide) (by decide) (by decide) rfl (by decide) (by decide)
  exact ⟨by unfold emailsUnique; decide, h.1, h.2.1⟩

/-- The canonical collection after `addContact`: unchanged on a duplicate,
otherwise the new record is appended (whether or not the save succeeds). -/
theorem addContact_fst_contacts (m : ContactManager) (d : ContactData)
    (generatedId : Str) (now : Nat) :
    (m.addContact d generatedId now).1.contacts =
      (if (m.findByEmail d.email).isSome then m.contacts
       else m.contacts ++ [newContact d generatedId now]) := by
  unfold ContactManager.addContact
  cases hf : m.findByEmail d.email with
  | some x => simp
  | none =>
    dsimp only []
    simp only [saveContacts_eq]
    by_cases hs : m.saveFails
    · simp [hs, applyCurrentFilter_eq, newContact]
    · simp [hs, applyCurrentFilter_eq, newContact]

/-- The canonical collection after `deleteContact`: unchanged when the id
is unknown, otherwise one record is removed. -/
theorem deleteContact_fst_contacts (m : ContactManager) (i : Str) :
    (m.deleteContact i).1.contacts = m.contacts ∨
    ∃ idx, (m.deleteContact i).1.contacts = m.contacts.eraseIdx idx := by
  unfold ContactManager.deleteContact
  cases hf : m.contacts.findIdx? (fun c : Contact => c.id == i) with
  | none => exact Or.inl rfl
  | some idx =>
    refine Or.inr ⟨idx, ?_⟩
    dsimp only []
    simp only [saveContacts_eq]
    by_cases hs : m.saveFails
    · simp [hs, applyCurrentFilter_eq]
    · simp [hs, applyCurrentFilter_eq]

/-- The canonical collection after `updateContact`: unchanged on NotFound or
DuplicateEmail; otherwise the found record is replaced in place by its
updated version (whether or not the save succeeds), and the duplicate guard
gave way for one of the three possible reasons. -/
theorem updateContact_fst_contacts (m : ContactManager) (i : Str)
    (data : UpdateData) (now : Nat) :
    (m.updateContact i data now).1.contacts = m.contacts ∨
    ∃ contact, m.findById i = some contact ∧
      (emailGuard data.email contact.email = false ∨
        (∃ ex, m.findByEmail (data.email.getD []) = some ex ∧ (ex.id != i) = false) ∨
        m.findByEmail (data.email.getD []) = none) ∧
      (m.updateContact i data now).1.contacts =
        m.contacts.set (m.contacts.findIdx (fun c : Contact => c.id == i))
          (contact.update data now) := by
  unfold ContactManager.updateContact
  cases hfid : m.findById i with
  | none => exact Or.inl rfl
  | some contact =>
    dsimp only []
    cases hg : emailGuard data.email contact.email with
    | false =>
      refine Or.inr ⟨contact, rfl, Or.inl hg, ?_⟩
      simp only [Bool.false_eq_true, if_false, saveContacts_eq]
      by_cases hs : m.saveFails
      · simp [hs, applyCurrentFilter_eq]
      · simp [hs, applyCurrentFilter_eq]
    | true =>
      cases hfe : m.findByEmail (data.email.getD []) with
      | some ex =>
        cases hni : ex.id != i with
        | true =>
          refine Or.inl ?_
          have hne2 : ¬ ex.id = i := by simpa using hni
          simp [hne2]
        | false =>
          have heq2 : ex.id = i := by simpa using hni
          refine Or.inr ⟨contact, rfl, Or.inr (Or.inl ⟨ex, rfl, hni⟩), ?_⟩
          simp only [if_true, Bool.false_eq_true, if_false, saveContacts_eq]
          by_cases hs : m.saveFails
          · simp [hs, applyCurrentFilter_eq, heq2]
          · simp [hs, applyCurrentFilter_eq, heq2]
      | none =>
        refine Or.inr ⟨contact, rfl, Or.inr (Or.inr rfl), ?_⟩
        simp only [if_true, Bool.false_eq_true, if_false, saveContacts_eq]
        by_cases hs : m.saveFails
        · simp [hs, applyCurrentFilter_eq]
        · simp [hs, applyCurrentFilter_eq]

/-- `addContact` always preserves the email-uniqueness invariant: the
duplicate check runs before the push, and the push happens whether or not
the save then succeeds. -/
theorem addContact_preserves_emailsUnique (m : ContactManager) (d : ContactData)
    (generatedId : Str) (now : Nat) (hem : emailsUnique m.contacts) :
    emailsUnique ((m.addContact d generatedId now).1.contacts) := by
  rw [addContact_fst_contacts]
  cases hf : m.findByEmail d.email with
  | some x => simpa using hem
  | none =>
    simp only [Option.isSome_none, Bool.false_eq_true, if_false]
    have hall : ∀ c ∈ m.contacts,
        ¬ (toLowerStr c.email == toLowerStr d.email) = true := by
      have h0 := hf
      unfold ContactManager.findByEmail at h0
      rw [List.find?_eq_none] at h0
      exact h0
    unfold emailsUnique at hem ⊢
    rw [List.map_append]
    refine List.Nodup.append hem (by simp) ?_
    intro a ha hb
    simp only [List.map_cons, List.map_nil, List.mem_singleton] at hb
    obtain ⟨c, hc, hceq⟩ := List.mem_map.1 ha
    have hnq : toLowerStr c.email ≠ toLowerStr d.email := by simpa using hall c hc
    apply hnq
    rw [hceq, hb]
    rfl

/-- `deleteContact` always preserves the email-uniqueness invariant
(removal only shrinks the collection). -/
theorem deleteContact_preserves_emailsUnique (m : ContactManager) (i : Str)
    (hem : emailsUnique m.contacts) :
    emailsUnique ((m.deleteContact i).1.contacts) := by
  rcases deleteContact_fst_contacts m i with h | ⟨idx, h⟩
  · rw [h]; exact hem
  · rw [h]
    unfold emailsUnique at hem ⊢
    exact List.Nodup.sublist
      (List.Sublist.map _ (List.eraseIdx_sublist m.contacts idx)) hem

/-- `updateContact` preserves the email-uniqueness invariant on any
directory with pairwise-distinct ids, provided the partial does not set the
email to the empty string (the falsy `""` skips the duplicate guard). -/
theorem updateContact_preserves_emailsUnique (m : ContactManager) (i : Str)
    (data : UpdateData) (now : Nat)
    (hid : idsUnique m.contacts) (hem : emailsUnique m.contacts)
    (hde : data.email ≠ some []) :
    emailsUnique ((m.updateContact i data now).1.contacts) := by
  rcases updateContact_fst_contacts m i data now with h | ⟨contact, hfid, hguard, h⟩
  · rw [h]; exact hem
  · rw [h]
    have hfid2 : m.contacts.find? (fun c : Contact => c.id == i) = some contact := hfid
    have hcmem : contact ∈ m.contacts := List.mem_of_find?_eq_some hfid2
    have hcid : contact.id = i := by simpa using List.find?_some hfid2
    obtain ⟨l1, l2, hsplit, hl1, hpa, hset⟩ :=
      set_findIdx_split (fun c : Contact => c.id == i) m.contacts contact
        (contact.update data now) hfid2
    rw [hset]
    have hkey : toLowerStr (Contact.update contact data now).email =
          toLowerStr contact.email ∨
        (∀ c ∈ m.contacts,
          toLowerStr c.email ≠ toLowerStr (Contact.update contact data now).email) := by
      cases hdmail : data.email with
      | none => exact Or.inl (by simp [Contact.update, hdmail])
      | some e =>
        have hue : (Contact.update contact data now).email = e := by
          simp [Contact.update, hdmail]
        by_cases hec : e = contact.email
        · exact Or.inl (by rw [hue, hec])
        · have hel : e ≠ [] := by
            intro hnil
            exact hde (by rw [hdmail, hnil])
          have hie : e.isEmpty = false := by
            cases e with
            | nil => exact absurd rfl hel
            | cons a t => rfl
          have hgt : emailGuard data.email contact.email = true := by
            simp [emailGuard, hdmail, hie, hec]
          rcases hguard with hgf | ⟨ex, hfe, hni⟩ | hfe
          · simp [hgf] at hgt
          · refine Or.inl ?_
            have hfe2 : m.contacts.find?
                (fun c : Contact => toLowerStr c.email == toLowerStr e) = some ex := by
              have h0 := hfe
              unfold ContactManager.findByEmail at h0
              rw [hdmail] at h0
              exact h0
            have hexmem : ex ∈ m.contacts := List.mem_of_find?_eq_some hfe2
            have hexe : toLowerStr ex.email = toLowerStr e := by
              simpa using List.find?_some hfe2
            have hexid : ex.id = i := by simpa using hni
            have hexc : ex = contact := by
              apply List.inj_on_of_nodup_map hid hexmem hcmem
              rw [hexid, hcid]
            rw [hue, ← hexe, hexc]
          · refine Or.inr ?_
            intro c hc
            have h0 := hfe
            unfold ContactManager.findByEmail at h0
            rw [hdmail] at h0
            rw [List.find?_eq_none] at h0
            rw [hue]
            simpa using h0 c hc
    unfold emailsUnique at hem ⊢
    rw [hsplit] at hem
    simp only [List.map_append, List.map_cons] at hem ⊢
    rcases hkey with hsame | hfresh
    · rw [hsame]
      exact hem
    · rw [List.nodup_middle] at hem ⊢
      rw [List.nodup_cons] at hem ⊢
      refine ⟨?_, hem.2⟩
      intro hmem
      rw [← List.map_append] at hmem
      obtain ⟨c, hc, hceq⟩ := List.mem_map.1 hmem
      have hcmem2 : c ∈ m.contacts := by
        rw [hsplit]
        rcases List.mem_append.1 hc with h1 | h2
        · exact List.mem_append.2 (Or.inl h1)
        · exact List.mem_append.2 (Or.inr (List.mem_cons_of_mem _ h2))
      exact hfresh c hcmem2 hceq

/-- C1 counterexample: the invariant is NOT maintained by every operation.
Starting from the empty directory, two adds with distinct emails followed by
two Updates whose partial is `{email: ""}` (each succeeding, with its save
performed) leave two records whose emails — both `""` — are equal
case-insensitively: the falsy empty string skips the duplicate-email guard
while `Object.assign` still overwrites the field. -/
theorem update_empty_email_breaks_uniqueness :
    emptyEmailTrace.contacts.map (fun c => toLowerStr c.email) = [[], []] ∧
      ¬ emailsUnique emptyEmailTrace.contacts := by
  constructor
  · decide
  · unfold emailsUnique
    decide

/-- C1 amended: on every directory state whose records have pairwise
distinct ids and pairwise case-insensitively distinct emails, the
case-insensitive email uniqueness invariant still holds after Add, Delete,
Search and ClearAll unconditionally, and after Update whenever the partial
does not set the email to the empty string. -/
theorem operations_preserve_email_uniqueness (m : ContactManager)
    (hid : idsUnique m.contacts) (hem : emailsUnique m.contacts) :
    (∀ d generatedId now, emailsUnique ((m.addContact d generatedId now).1.contacts)) ∧
    (∀ i data now, data.email ≠ some [] →
      emailsUnique ((m.updateContact i data now).1.contacts)) ∧
    (∀ i, emailsUnique ((m.deleteContact i).1.contacts)) ∧
    (∀ q, emailsUnique ((m.searchContacts q).1.contacts)) ∧
    emailsUnique m.clearAllContacts.contacts := by
  refine ⟨fun d g n => addContact_preserves_emailsUnique m d g n hem,
    fun i data n hde => updateContact_preserves_emailsUnique m i data n hid hem hde,
    fun i => deleteContact_preserves_emailsUnique m i hem,
    fun q => ?_, ?_⟩
  · rw [searchContacts_fst]
    exact hem
  · unfold ContactManager.clearAllContacts emailsUnique
    simp

/-- C1 witness: on the two-record directory every operation preserves the
invariant — shown here for a fresh add, a phone-only update, a delete, a
search, and the clear. -/
theorem operations_preserve_email_uniqueness_witness :
    idsUnique twoContactManager.contacts ∧
      emailsUnique twoContactManager.contacts ∧
      emailsUnique ((twoContactManager.addContact craData "id3".toList 9).1.contacts) ∧
      emailsUnique ((twoContactManager.updateContact "id1".toList
        ⟨none, none, none, some (some "555".toList), none⟩ 9).1.contacts) ∧
      emailsUnique ((twoContactManager.deleteContact "id2".toList).1.contacts) ∧
      emailsUnique ((twoContactManager.searchContacts "ada".toList).1.contacts) ∧
      emailsUnique twoContactManager.clearAllContacts.contacts := by
  have hid : idsUnique twoContactManager.contacts := by
    unfold idsUnique
    decide
  have hem : emailsUnique twoContactManager.contacts := by
    unfold emailsUnique
    decide
  have h := operations_preserve_email_uniqueness twoContactManager hid hem
  exact ⟨hid, hem, h.1 craData "id3".toList 9,
    h.2.1 "id1".toList ⟨none, none, none, some (some "555".toList), none⟩ 9 (by decide),
    h.2.2.1 "id2".toList, h.2.2.2.1 "ada".toList, h.2.2.2.2⟩
